import Mathlib

/-
Verification of the medication-adherence reminder subsystem of app.py:
contact resolution, notification preferences, the notification
dispatcher, the process-local deduplication caches, quiet hours, and
the per-slot logic of the medication reminder worker.

Modelling conventions of the shallow embedding:
instants are integer seconds (UTC), local times of day are seconds in
the day, database tables are lists of rows, and the process-local
Python dict caches are association lists keyed exactly as the source
code keys them.
-/

/-! ## Association lists: the model of the Python dict caches -/

def alookup {α β : Type} [DecidableEq α] (k : α) : List (α × β) → Option β
  | [] => none
  | p :: rest => if p.1 = k then some p.2 else alookup k rest

/-- Dict assignment: bind k to v, dropping any previous binding of k. -/
def aset {α β : Type} [DecidableEq α] (k : α) (v : β) (l : List (α × β)) : List (α × β) :=
  (k, v) :: l.filter (fun p => !decide (p.1 = k))

/-- Number of bindings of key k present in the association list. -/
def countKey {α β : Type} [DecidableEq α] (k : α) (l : List (α × β)) : Nat :=
  l.countP (fun p => decide (p.1 = k))

theorem alookup_cons {α β : Type} [DecidableEq α] (k : α) (p : α × β) (l : List (α × β)) :
    alookup k (p :: l) = if p.1 = k then some p.2 else alookup k l := rfl

theorem countKey_cons {α β : Type} [DecidableEq α] (k : α) (p : α × β) (l : List (α × β)) :
    countKey k (p :: l) = countKey k l + if p.1 = k then 1 else 0 := by
  unfold countKey
  rw [List.countP_cons]
  by_cases h : p.1 = k <;> simp [h]

theorem alookup_filter_none {α β : Type} [DecidableEq α] (k : α) (f : α × β → Bool)
    (l : List (α × β)) (h : alookup k l = none) : alookup k (l.filter f) = none := by
  induction l with
  | nil => simpa using h
  | cons p rest ih =>
    rw [alookup_cons] at h
    have hk : ¬ p.1 = k := by
      intro hk
      simp [hk] at h
    have h' : alookup k rest = none := by simpa [hk] using h
    cases hf : f p with
    | false => simp [List.filter_cons, hf, ih h']
    | true => simp [List.filter_cons, hf, alookup_cons, hk, ih h']

theorem alookup_filter_ne {α β : Type} [DecidableEq α] (k : α) (l : List (α × β)) :
    alookup k (l.filter (fun p => !decide (p.1 = k))) = none := by
  induction l with
  | nil => simp [alookup]
  | cons p rest ih =>
    by_cases hk : p.1 = k
    · simp [List.filter_cons, hk, ih]
    · simp [List.filter_cons, hk, alookup_cons, ih]

theorem alookup_aset_self {α β : Type} [DecidableEq α] (k : α) (v : β) (l : List (α × β)) :
    alookup k (aset k v l) = some v := by
  simp [aset, alookup_cons]

theorem countKey_filter_le {α β : Type} [DecidableEq α] (k : α) (f : α × β → Bool)
    (l : List (α × β)) : countKey k (l.filter f) ≤ countKey k l :=
  (List.filter_sublist l).countP_le _

theorem countKey_zero_of_alookup_none {α β : Type} [DecidableEq α] (k : α)
    (l : List (α × β)) (h : alookup k l = none) : countKey k l = 0 := by
  induction l with
  | nil => simp [countKey]
  | cons p rest ih =>
    rw [alookup_cons] at h
    have hk : ¬ p.1 = k := by
      intro hk
      simp [hk] at h
    have h' : alookup k rest = none := by simpa [hk] using h
    unfold countKey at *
    simp [List.countP_cons, hk, ih h']

theorem countKey_aset {α β : Type} [DecidableEq α] (k : α) (v : β) (l : List (α × β)) :
    countKey k (aset k v l) = 1 := by
  have h0 : countKey k (l.filter (fun p => !decide (p.1 = k))) = 0 :=
    countKey_zero_of_alookup_none k _ (alookup_filter_ne k l)
  unfold countKey aset at *
  simp [List.countP_cons, h0]

theorem alookup_filter_of_countKey_le_one {α β : Type} [DecidableEq α] (k : α)
    (f : α × β → Bool) (l : List (α × β)) (v : β)
    (hc : countKey k l ≤ 1) (h : alookup k l = some v) :
    alookup k (l.filter f) = if f (k, v) then some v else none := by
  induction l with
  | nil => simp [alookup] at h
  | cons p rest ih =>
    rw [alookup_cons] at h
    by_cases hk : p.1 = k
    · have hv : p.2 = v := by simpa [hk] using h
      have hcr : countKey k rest = 0 := by
        rw [countKey_cons] at hc
        simp [hk] at hc
        omega
      have hrest : alookup k rest = none := by
        rcases ho : alookup k rest with _ | w
        · rfl
        · exfalso
          revert hcr
          clear hc ih h
          induction rest with
          | nil => simp [alookup] at ho
          | cons q qs ihq =>
            rw [alookup_cons] at ho
            by_cases hq : q.1 = k
            · unfold countKey
              simp [List.countP_cons, hq]
            · intro hz
              refine ihq (by simpa [hq] using ho) ?_
              unfold countKey at hz ⊢
              rw [List.countP_cons] at hz
              simpa [hq] using hz
      have hp : p = (k, v) := by
        rcases p with ⟨a, b⟩
        simp only at hk hv
        rw [hk, hv]
      subst hp
      cases hf : f (k, v) with
      | false =>
        simp [List.filter_cons, hf, alookup_filter_none k f rest hrest]
      | true =>
        simp [List.filter_cons, hf, alookup_cons]
    · have hc' : countKey k rest ≤ 1 := by
        unfold countKey at hc ⊢
        rw [List.countP_cons] at hc
        simpa [hk] using hc
      have h' : alookup k rest = some v := by simpa [hk] using h
      cases hf : f p with
      | false => simp [List.filter_cons, hf, ih hc' h']
      | true => simp [List.filter_cons, hf, alookup_cons, hk, ih hc' h']

/-! ## Quiet hours

Model of is_quiet_hours in app.py. Local times of day are seconds in
the day. A configured bound that is missing or fails to parse as
HH:MM:SS is modelled as none; the source returns False in that case. -/

def is_quiet_hours (nowT : Nat) : Option Nat → Option Nat → Bool
  | some startT, some endT =>
    if startT < endT then decide (startT ≤ nowT ∧ nowT ≤ endT)
    else decide (nowT ≥ startT ∨ nowT ≤ endT)
  | _, _ => false

/-! ## Contact resolution

Models of get_user_email and get_user_phone in app.py. The user row
fetch is modelled by an Option String argument (none when no row, and
a NULL contact behaves like the empty string, as via the source
expression contact or empty). pyStrip models the Python str.strip() on
the character list of the string. -/

def stripChars (l : List Char) : List Char :=
  ((l.dropWhile Char.isWhitespace).reverse.dropWhile Char.isWhitespace).reverse

def pyStrip (s : String) : String := String.mk (stripChars s.toList)

def get_user_email (contact : Option String) : Option String :=
  match contact with
  | none => none
  | some c0 =>
    let c := pyStrip c0
    if c.toList.contains '@' then some c else none

def get_user_phone (contact : Option String) : Option String :=
  match contact with
  | none => none
  | some c0 =>
    let c := pyStrip c0
    let digits := c.toList.filter (fun ch => ch.isDigit || ch == '+')
    if 9 ≤ (digits.filter (fun ch => ch.isDigit)).length then some (String.mk digits)
    else none

/-! ## Notification preferences and the dispatcher

Models of get_notification_preferences and create_notification in
app.py. The preference row fetch is an Option NotifPrefs argument; the
source falls back to a permissive default dict when no row exists.
create_notification is modelled as the list of persistence and channel
actions it performs, in order: the Notification insert always comes
first, then at most one email attempt and one SMS attempt, gated by
the per-category toggle and the channel toggles. -/

structure NotifPrefs where
  medication_reminders : Bool
  health_alerts : Bool
  appointment_reminders : Bool
  wellness_tips : Bool
  email_notifications : Bool
  sms_notifications : Bool
  push_notifications : Bool
  quiet_hours_start : Option Nat
  quiet_hours_end : Option Nat
  timezone : Option String
deriving DecidableEq

def defaultPrefs : NotifPrefs :=
  ⟨true, true, true, true, true, false, true, none, none, some "UTC"⟩

def get_notification_preferences : Option NotifPrefs → NotifPrefs
  | none => defaultPrefs
  | some p => p

inductive DispatchAct where
  | notifRow : Nat → String → String → String → DispatchAct
  | emailSend : String → String → String → DispatchAct
  | smsSend : String → String → DispatchAct
deriving DecidableEq

def categoryAllowed (prefs : NotifPrefs) (ty : String) : Bool :=
  if (ty == "medication" || ty == "medication_reminder") && !prefs.medication_reminders then
    false
  else if (ty == "health" || ty == "health_alert") && !prefs.health_alerts then false
  else if (ty == "appointment" || ty == "appointment_reminder")
      && !prefs.appointment_reminders then false
  else if (ty == "wellness" || ty == "wellness_tip") && !prefs.wellness_tips then false
  else true

def create_notification (contact : Option String) (prefRow : Option NotifPrefs)
    (u : Nat) (ty title body : String) : List DispatchAct :=
  let inserted := [DispatchAct.notifRow u ty title body]
  let prefs := get_notification_preferences prefRow
  if !categoryAllowed prefs ty then inserted
  else
    let emailActs :=
      match get_user_email contact with
      | some em => if prefs.email_notifications then [DispatchAct.emailSend em title body] else []
      | none => []
    let smsActs :=
      match get_user_phone contact with
      | some ph =>
        if prefs.sms_notifications then [DispatchAct.smsSend ph (title ++ ": " ++ body)] else []
      | none => []
    inserted ++ emailActs ++ smsActs

/-! ## Scheduler state and the per-slot logic of the reminder worker

The durable tables and process-local caches touched by
medication_reminder_worker. Rows of medication_intake_log keep the
fields the worker reads and writes; notifications keep the fields the
claims inspect. The three module-level dict caches are association
lists keyed by (user_id, schedule_id, time_key); the minute-resolution
time_key string of the source is injective on the minute-aligned
scheduled instants, so the scheduled UTC instant itself is the key. -/

structure LogRow where
  schedule_id : Nat
  user_id : Nat
  scheduled_time : Int
  status : String
deriving DecidableEq

structure Notif where
  user_id : Nat
  ntype : String
  title : String
  body : String
deriving DecidableEq

structure RetryVal where
  count : Nat
  ts : Int
deriving DecidableEq

abbrev SlotKey := Nat × Nat × Int

structure SchedState where
  ledger : List LogRow
  notifications : List Notif
  reminderCache : List (SlotKey × Int)
  retryCache : List (SlotKey × RetryVal)
  missedCache : List (SlotKey × Int)
deriving DecidableEq

/-- Model of has_intake: the ledger query matches on schedule_id and
scheduled_time only. -/
def has_intake (ledger : List LogRow) (sched : Nat) (schedDt : Int) : Bool :=
  ledger.any (fun r => decide (r.schedule_id = sched) && decide (r.scheduled_time = schedDt))

/-- Model of should_send_med_reminder: on the fresh-entry fast path it
returns False without touching the cache; otherwise it records now
under the key and sweeps entries older than 120 minutes. -/
def should_send_med_reminder (now : Int) (key : SlotKey) (cache : List (SlotKey × Int)) :
    Bool × List (SlotKey × Int) :=
  match alookup key cache with
  | some lastSent =>
    if now - lastSent < 3000 then (false, cache)
    else (true, (aset key now cache).filter (fun p => decide (now - p.2 ≤ 7200)))
  | none => (true, (aset key now cache).filter (fun p => decide (now - p.2 ≤ 7200)))

structure MedSlot where
  user : Nat
  sched : Nat
  schedDt : Int
  medName : String
  dosage : String
  freq : String
deriving DecidableEq

def slotKey (sl : MedSlot) : SlotKey := (sl.user, sl.sched, sl.schedDt)

def initial_notif (sl : MedSlot) : Notif :=
  ⟨sl.user, "medication_reminder", "Medication Reminder",
    "Time to take " ++ sl.medName ++ " " ++ sl.dosage ++ " " ++ sl.freq ++ "."⟩

def followup_notif (sl : MedSlot) : Notif :=
  ⟨sl.user, "medication_reminder", "Medication Reminder (Follow-up)",
    "Reminder: please take " ++ sl.medName ++ " " ++ sl.dosage ++ " " ++ sl.freq ++ "."⟩

def missed_notif (sl : MedSlot) : Notif :=
  ⟨sl.user, "medication", "Missed Dose Alert",
    "You missed a dose of " ++ sl.medName
      ++ ". Please follow your care plan or consult your provider."⟩

/-- The body of the per-slot branch of medication_reminder_worker:
skip future slots, skip slots with an existing intake row, then the
initial window (elapsed at most 15 min), the retry window (15 to 30
min), and the missed latch (beyond 60 min). elapsed is in seconds and
now is the UTC instant of the tick. -/
def processSlot (sl : MedSlot) (elapsed : Int) (quiet : Bool) (now : Int)
    (st : SchedState) : SchedState :=
  if elapsed < 0 then st
  else if has_intake st.ledger sl.sched sl.schedDt then st
  else if elapsed ≤ 900 then
    if quiet then st
    else
      let r := should_send_med_reminder now (slotKey sl) st.reminderCache
      if r.1 then
        { st with
          reminderCache := r.2
          notifications := st.notifications ++ [initial_notif sl]
          retryCache := aset (slotKey sl) ⟨1, now⟩ st.retryCache }
      else { st with reminderCache := r.2 }
  else if elapsed ≤ 1800 then
    if quiet then st
    else
      let rv := (alookup (slotKey sl) st.retryCache).getD ⟨0, now⟩
      if 2 ≤ rv.count then st
      else
        { st with
          notifications := st.notifications ++ [followup_notif sl]
          retryCache := aset (slotKey sl) ⟨rv.count + 1, now⟩ st.retryCache }
  else if 3600 < elapsed then
    if (alookup (slotKey sl) st.missedCache).isSome then st
    else
      { st with
        ledger := st.ledger ++ [⟨sl.sched, sl.user, sl.schedDt, "missed"⟩]
        notifications := st.notifications ++ (if quiet then [] else [missed_notif sl])
        missedCache := aset (slotKey sl) now st.missedCache }
  else st

/-- The end-of-tick cleanup of medication_reminder_worker: drop retry
and missed cache entries whose timestamp is older than two days. -/
def evictCaches (st : SchedState) (now : Int) : SchedState :=
  { st with
    retryCache := st.retryCache.filter (fun p => !decide (p.2.ts < now - 172800))
    missedCache := st.missedCache.filter (fun p => !decide (p.2 < now - 172800)) }

structure TickIn where
  now : Int
  quiet : Bool
deriving DecidableEq

/-- One scheduler tick restricted to a single fixed slot: evaluate the
slot (elapsed is the tick instant minus the scheduled instant) and run
the cache cleanup. -/
def stepSlot (sl : MedSlot) (st : SchedState) (tk : TickIn) : SchedState :=
  evictCaches (processSlot sl (tk.now - sl.schedDt) tk.quiet tk.now st) tk.now

/-- A sequence of scheduler ticks, each evaluating the same slot. -/
def runSlotTicks (sl : MedSlot) (ticks : List TickIn) (st : SchedState) : SchedState :=
  ticks.foldl (stepSlot sl) st

/-- Follow-up (retry) reminder notifications present in an inbox. -/
def countFollowups (l : List Notif) : Nat :=
  l.countP (fun n => decide (n.title = "Medication Reminder (Follow-up)"))

/-! ## Branch characterizations of the per-slot logic -/

theorem evict_ledger (st : SchedState) (now : Int) : (evictCaches st now).ledger = st.ledger :=
  rfl

theorem evict_notifications (st : SchedState) (now : Int) :
    (evictCaches st now).notifications = st.notifications := rfl

theorem evict_reminderCache (st : SchedState) (now : Int) :
    (evictCaches st now).reminderCache = st.reminderCache := rfl

theorem ss_of_none (now : Int) (key : SlotKey) (cache : List (SlotKey × Int))
    (h : alookup key cache = none) :
    should_send_med_reminder now key cache
      = (true, (aset key now cache).filter (fun p => decide (now - p.2 ≤ 7200))) := by
  unfold should_send_med_reminder
  rw [h]

theorem ss_of_fresh (now : Int) (key : SlotKey) (cache : List (SlotKey × Int)) (t : Int)
    (h : alookup key cache = some t) (hf : now - t < 3000) :
    should_send_med_reminder now key cache = (false, cache) := by
  unfold should_send_med_reminder
  rw [h]
  simp [hf]

theorem ss_of_stale (now : Int) (key : SlotKey) (cache : List (SlotKey × Int)) (t : Int)
    (h : alookup key cache = some t) (hf : ¬ now - t < 3000) :
    should_send_med_reminder now key cache
      = (true, (aset key now cache).filter (fun p => decide (now - p.2 ≤ 7200))) := by
  unfold should_send_med_reminder
  rw [h]
  simp [hf]

/-- After a send is recorded, the swept reminder cache maps the key to
the send instant. -/
theorem alookup_after_send (key : SlotKey) (now : Int) (cache : List (SlotKey × Int)) :
    alookup key ((aset key now cache).filter (fun p => decide (now - p.2 ≤ 7200)))
      = some now := by
  unfold aset
  rw [List.filter_cons]
  simp [alookup_cons]

/-- A blocked guard returns without touching the reminder cache. -/
theorem ss_false_snd (now : Int) (key : SlotKey) (cache : List (SlotKey × Int))
    (h : (should_send_med_reminder now key cache).1 = false) :
    (should_send_med_reminder now key cache).2 = cache := by
  unfold should_send_med_reminder at *
  rcases ho : alookup key cache with _ | t
  · rw [ho] at h
    simp at h
  · rw [ho] at h
    by_cases hf : now - t < 3000
    · simp [hf]
    · simp [hf] at h

theorem processSlot_future (sl : MedSlot) (e : Int) (q : Bool) (now : Int) (st : SchedState)
    (h : e < 0) : processSlot sl e q now st = st := by
  unfold processSlot
  simp [h]

theorem processSlot_resolved (sl : MedSlot) (e : Int) (q : Bool) (now : Int) (st : SchedState)
    (h : has_intake st.ledger sl.sched sl.schedDt = true) :
    processSlot sl e q now st = st := by
  unfold processSlot
  by_cases h0 : e < 0 <;> simp [h0, h]

theorem processSlot_initial_blocked (sl : MedSlot) (e : Int) (now : Int) (st : SchedState)
    (hI : has_intake st.ledger sl.sched sl.schedDt = false)
    (h0 : 0 ≤ e) (h15 : e ≤ 900)
    (hr : (should_send_med_reminder now (slotKey sl) st.reminderCache).1 = false) :
    processSlot sl e false now st = st := by
  unfold processSlot
  simp only [hI, hr, h15, show ¬ e < 0 by omega]
  simp [ss_false_snd now (slotKey sl) st.reminderCache hr]

theorem processSlot_initial_send (sl : MedSlot) (e : Int) (now : Int) (st : SchedState)
    (hI : has_intake st.ledger sl.sched sl.schedDt = false)
    (h0 : 0 ≤ e) (h15 : e ≤ 900)
    (hr : (should_send_med_reminder now (slotKey sl) st.reminderCache).1 = true) :
    processSlot sl e false now st
      = { st with
          reminderCache := (should_send_med_reminder now (slotKey sl) st.reminderCache).2
          notifications := st.notifications ++ [initial_notif sl]
          retryCache := aset (slotKey sl) ⟨1, now⟩ st.retryCache } := by
  unfold processSlot
  simp only [hI, hr, h15, show ¬ e < 0 by omega]
  simp

theorem processSlot_retry_capped (sl : MedSlot) (e : Int) (now : Int) (st : SchedState)
    (hI : has_intake st.ledger sl.sched sl.schedDt = false)
    (h15 : 900 < e) (h30 : e ≤ 1800)
    (hc : 2 ≤ ((alookup (slotKey sl) st.retryCache).getD ⟨0, now⟩).count) :
    processSlot sl e false now st = st := by
  unfold processSlot
  simp only [hI, h30, hc, show ¬ e < 0 by omega, show ¬ e ≤ 900 by omega]
  simp

theorem processSlot_retry_send (sl : MedSlot) (e : Int) (now : Int) (st : SchedState)
    (hI : has_intake st.ledger sl.sched sl.schedDt = false)
    (h15 : 900 < e) (h30 : e ≤ 1800)
    (hc : ¬ 2 ≤ ((alookup (slotKey sl) st.retryCache).getD ⟨0, now⟩).count) :
    processSlot sl e false now st
      = { st with
          notifications := st.notifications ++ [followup_notif sl]
          retryCache :=
            aset (slotKey sl)
              ⟨((alookup (slotKey sl) st.retryCache).getD ⟨0, now⟩).count + 1, now⟩
              st.retryCache } := by
  unfold processSlot
  simp only [hI, h30, hc, show ¬ e < 0 by omega, show ¬ e ≤ 900 by omega]
  simp

theorem processSlot_quiet_id (sl : MedSlot) (e : Int) (now : Int) (st : SchedState)
    (h0 : 0 ≤ e) (h18 : e ≤ 1800) : processSlot sl e true now st = st := by
  unfold processSlot
  cases hI : has_intake st.ledger sl.sched sl.schedDt with
  | true => simp [hI, show ¬ e < 0 by omega]
  | false =>
    by_cases h9 : e ≤ 900
    · simp [hI, show ¬ e < 0 by omega, h9]
    · simp [hI, show ¬ e < 0 by omega, h9, h18]

theorem processSlot_gap (sl : MedSlot) (e : Int) (q : Bool) (now : Int) (st : SchedState)
    (h30 : 1800 < e) (h60 : ¬ 3600 < e) : processSlot sl e q now st = st := by
  unfold processSlot
  cases hI : has_intake st.ledger sl.sched sl.schedDt with
  | true => simp [hI, show ¬ e < 0 by omega]
  | false =>
    simp [hI, h60, show ¬ e < 0 by omega, show ¬ e ≤ 900 by omega, show ¬ e ≤ 1800 by omega]

theorem processSlot_missed_latched (sl : MedSlot) (e : Int) (q : Bool) (now : Int)
    (st : SchedState)
    (hI : has_intake st.ledger sl.sched sl.schedDt = false)
    (h60 : 3600 < e) (hm : (alookup (slotKey sl) st.missedCache).isSome = true) :
    processSlot sl e q now st = st := by
  unfold processSlot
  simp [hI, h60, hm, show ¬ e < 0 by omega, show ¬ e ≤ 900 by omega,
    show ¬ e ≤ 1800 by omega]

theorem processSlot_missed_write (sl : MedSlot) (e : Int) (q : Bool) (now : Int)
    (st : SchedState)
    (hI : has_intake st.ledger sl.sched sl.schedDt = false)
    (h60 : 3600 < e) (hm : alookup (slotKey sl) st.missedCache = none) :
    processSlot sl e q now st
      = { st with
          ledger := st.ledger ++ [⟨sl.sched, sl.user, sl.schedDt, "missed"⟩]
          notifications := st.notifications ++ (if q then [] else [missed_notif sl])
          missedCache := aset (slotKey sl) now st.missedCache } := by
  unfold processSlot
  simp [hI, h60, hm, show ¬ e < 0 by omega, show ¬ e ≤ 900 by omega,
    show ¬ e ≤ 1800 by omega]

/-! ## Ledger-freeze helpers -/

theorem has_intake_insert (ledger : List LogRow) (u sched : Nat) (schedDt : Int)
    (status : String) :
    has_intake (ledger ++ [⟨sched, u, schedDt, status⟩]) sched schedDt = true := by
  unfold has_intake
  rw [List.any_append]
  simp

/-- Once an intake row exists for the slot, any further sequence of
ticks changes neither the ledger nor the notifications. -/
theorem runSlotTicks_resolved (sl : MedSlot) (ticks : List TickIn) (st : SchedState)
    (h : has_intake st.ledger sl.sched sl.schedDt = true) :
    (runSlotTicks sl ticks st).ledger = st.ledger ∧
    (runSlotTicks sl ticks st).notifications = st.notifications := by
  induction ticks generalizing st with
  | nil => exact ⟨rfl, rfl⟩
  | cons tk rest ih =>
    have hstep : stepSlot sl st tk = evictCaches st tk.now := by
      unfold stepSlot
      rw [processSlot_resolved sl _ tk.quiet tk.now st h]
    have h2 : has_intake (stepSlot sl st tk).ledger sl.sched sl.schedDt = true := by
      rw [hstep, evict_ledger]
      exact h
    have hrun : runSlotTicks sl (tk :: rest) st = runSlotTicks sl rest (stepSlot sl st tk) :=
      rfl
    obtain ⟨hl, hn⟩ := ih (stepSlot sl st tk) h2
    refine ⟨?_, ?_⟩
    · rw [hrun, hl, hstep, evict_ledger]
    · rw [hrun, hn, hstep, evict_notifications]

/-! ## Claim theorems -/

/-- C1: for a dose slot whose IntakeLogEntry already exists in the
ledger (has_intake true for that schedule and scheduled UTC instant),
a scheduler tick takes no action for the slot: the state, hence the
ledger, the notifications, and all three deduplication caches, is
unchanged, for every elapsed time, quiet flag, tick instant, and every
prior content or eviction state of the caches. -/
theorem resolved_slot_no_action (sl : MedSlot) (e : Int) (q : Bool) (now : Int)
    (st : SchedState) (h : has_intake st.ledger sl.sched sl.schedDt = true) :
    processSlot sl e q now st = st :=
  processSlot_resolved sl e q now st h

theorem resolved_slot_no_action_witness :
    has_intake [(⟨2, 1, 100, "taken"⟩ : LogRow)] 2 100 = true ∧
    processSlot ⟨1, 2, 100, "Aspirin", "100mg", "daily"⟩ 5000 false 200
        ⟨[⟨2, 1, 100, "taken"⟩], [], [], [], []⟩
      = ⟨[⟨2, 1, 100, "taken"⟩], [], [], [], []⟩ :=
  ⟨by decide,
    resolved_slot_no_action ⟨1, 2, 100, "Aspirin", "100mg", "daily"⟩ 5000 false 200
      ⟨[⟨2, 1, 100, "taken"⟩], [], [], [], []⟩ (by decide)⟩

/-- C2: for an untaken slot (no intake row, missed latch clear) whose
elapsed time exceeds 60 minutes, the tick appends exactly one ledger
row with status missed for that (schedule, user, scheduled UTC
instant), and every sequence of subsequent ticks of the process adds
no further ledger row and no notification for the slot. -/
theorem missed_latch_single_write (sl : MedSlot) (e : Int) (q : Bool) (now : Int)
    (st : SchedState)
    (hI : has_intake st.ledger sl.sched sl.schedDt = false)
    (he : 3600 < e)
    (hm : alookup (slotKey sl) st.missedCache = none) :
    (processSlot sl e q now st).ledger
        = st.ledger ++ [⟨sl.sched, sl.user, sl.schedDt, "missed"⟩] ∧
    ∀ ticks : List TickIn,
      (runSlotTicks sl ticks (processSlot sl e q now st)).ledger
          = (processSlot sl e q now st).ledger ∧
      (runSlotTicks sl ticks (processSlot sl e q now st)).notifications
          = (processSlot sl e q now st).notifications := by
  have hw := processSlot_missed_write sl e q now st hI he hm
  constructor
  · rw [hw]
  · intro ticks
    apply runSlotTicks_resolved
    rw [hw]
    exact has_intake_insert st.ledger sl.user sl.sched sl.schedDt "missed"

theorem missed_latch_single_write_witness :
    (processSlot ⟨1, 2, 100, "Aspirin", "100mg", "daily"⟩ 3700 false 3800
        ⟨[], [], [], [], []⟩).ledger
      = [] ++ [⟨2, 1, 100, "missed"⟩] ∧
    (runSlotTicks ⟨1, 2, 100, "Aspirin", "100mg", "daily"⟩ [⟨3960, false⟩]
        (processSlot ⟨1, 2, 100, "Aspirin", "100mg", "daily"⟩ 3700 false 3800
          ⟨[], [], [], [], []⟩)).ledger
      = (processSlot ⟨1, 2, 100, "Aspirin", "100mg", "daily"⟩ 3700 false 3800
          ⟨[], [], [], [], []⟩).ledger :=
  ⟨(missed_latch_single_write ⟨1, 2, 100, "Aspirin", "100mg", "daily"⟩ 3700 false 3800
      ⟨[], [], [], [], []⟩ (by decide) (by decide) (by decide)).1,
   ((missed_latch_single_write ⟨1, 2, 100, "Aspirin", "100mg", "daily"⟩ 3700 false 3800
      ⟨[], [], [], [], []⟩ (by decide) (by decide) (by decide)).2 [⟨3960, false⟩]).1⟩

/-- C3: while quiet hours are in effect, a slot in the initial window
or the retry window is left completely untouched (no notification, no
initial-send cache entry, no retry counter change), while a slot past
60 minutes still gets its missed ledger row and missed-cache latch,
with only the accompanying notification suppressed. -/
theorem quiet_hours_suppression (sl : MedSlot) (e : Int) (now : Int) (st : SchedState) :
    (0 ≤ e → e ≤ 1800 → processSlot sl e true now st = st) ∧
    (3600 < e → has_intake st.ledger sl.sched sl.schedDt = false →
      alookup (slotKey sl) st.missedCache = none →
      processSlot sl e true now st
        = { st with
            ledger := st.ledger ++ [⟨sl.sched, sl.user, sl.schedDt, "missed"⟩]
            missedCache := aset (slotKey sl) now st.missedCache }) := by
  constructor
  · intro h0 h18
    exact processSlot_quiet_id sl e now st h0 h18
  · intro h60 hI hm
    rw [processSlot_missed_write sl e true now st hI h60 hm]
    simp

theorem quiet_hours_suppression_witness :
    processSlot ⟨1, 2, 100, "Aspirin", "100mg", "daily"⟩ 500 true 600
        ⟨[], [], [], [], []⟩
      = ⟨[], [], [], [], []⟩ ∧
    processSlot ⟨1, 2, 100, "Aspirin", "100mg", "daily"⟩ 3700 true 3800
        ⟨[], [], [], [], []⟩
      = { (⟨[], [], [], [], []⟩ : SchedState) with
          ledger := [] ++ [⟨2, 1, 100, "missed"⟩]
          missedCache := aset (1, 2, 100) 3800 [] } :=
  ⟨(quiet_hours_suppression ⟨1, 2, 100, "Aspirin", "100mg", "daily"⟩ 500 600
      ⟨[], [], [], [], []⟩).1 (by decide) (by decide),
   (quiet_hours_suppression ⟨1, 2, 100, "Aspirin", "100mg", "daily"⟩ 3700 3800
      ⟨[], [], [], [], []⟩).2 (by decide) (by decide) (by decide)⟩

/-- C4: for an untaken slot outside quiet hours with elapsed time in
[0, 15] minutes: when the initial-send cache has no entry for the
(user, schedule, slot) key, the initial reminder is dispatched and the
send instant is recorded; when the cache holds a send less than 50
minutes old, the tick changes nothing; when the recorded send is at
least 50 minutes old, the guard refreshes and dispatches again; and
after a dispatch, any second evaluation of the slot within 50 minutes
of the recorded send (in particular any later tick inside the same
15-minute window) is blocked. -/
theorem initial_window_dedup (sl : MedSlot) (e : Int) (now : Int) (st : SchedState)
    (hI : has_intake st.ledger sl.sched sl.schedDt = false)
    (h0 : 0 ≤ e) (h15 : e ≤ 900) :
    (alookup (slotKey sl) st.reminderCache = none →
      (processSlot sl e false now st).notifications
          = st.notifications ++ [initial_notif sl] ∧
      alookup (slotKey sl) (processSlot sl e false now st).reminderCache = some now) ∧
    (∀ t, alookup (slotKey sl) st.reminderCache = some t → now - t < 3000 →
      processSlot sl e false now st = st) ∧
    (∀ t, alookup (slotKey sl) st.reminderCache = some t → 3000 ≤ now - t →
      (processSlot sl e false now st).notifications
          = st.notifications ++ [initial_notif sl]) ∧
    (alookup (slotKey sl) st.reminderCache = none →
      ∀ e2 now2, 0 ≤ e2 → e2 ≤ 900 → now2 - now < 3000 →
        processSlot sl e2 false now2 (processSlot sl e false now st)
          = processSlot sl e false now st) := by
  refine ⟨?_, ?_, ?_, ?_⟩
  · intro hn
    have hss := ss_of_none now (slotKey sl) st.reminderCache hn
    have hr1 : (should_send_med_reminder now (slotKey sl) st.reminderCache).1 = true := by
      rw [hss]
    rw [processSlot_initial_send sl e now st hI h0 h15 hr1]
    refine ⟨rfl, ?_⟩
    show alookup (slotKey sl) (should_send_med_reminder now (slotKey sl) st.reminderCache).2
        = some now
    rw [hss]
    exact alookup_after_send (slotKey sl) now st.reminderCache
  · intro t ht hf
    exact processSlot_initial_blocked sl e now st hI h0 h15
      (by rw [ss_of_fresh now (slotKey sl) st.reminderCache t ht hf])
  · intro t ht hf
    have hss := ss_of_stale now (slotKey sl) st.reminderCache t ht (by omega)
    have hr1 : (should_send_med_reminder now (slotKey sl) st.reminderCache).1 = true := by
      rw [hss]
    rw [processSlot_initial_send sl e now st hI h0 h15 hr1]
  · intro hn e2 now2 h0' h15' hlt
    have hss := ss_of_none now (slotKey sl) st.reminderCache hn
    have hr1 : (should_send_med_reminder now (slotKey sl) st.reminderCache).1 = true := by
      rw [hss]
    have hst' := processSlot_initial_send sl e now st hI h0 h15 hr1
    have hI' : has_intake (processSlot sl e false now st).ledger sl.sched sl.schedDt
        = false := by
      rw [hst']
      exact hI
    have hlook : alookup (slotKey sl) (processSlot sl e false now st).reminderCache
        = some now := by
      rw [hst']
      show alookup (slotKey sl)
          (should_send_med_reminder now (slotKey sl) st.reminderCache).2 = some now
      rw [hss]
      exact alookup_after_send (slotKey sl) now st.reminderCache
    exact processSlot_initial_blocked sl e2 now2 (processSlot sl e false now st) hI' h0' h15'
      (by rw [ss_of_fresh now2 (slotKey sl)
            (processSlot sl e false now st).reminderCache now hlook (by omega)])

theorem initial_window_dedup_witness :
    (processSlot ⟨1, 2, 100, "Aspirin", "100mg", "daily"⟩ 0 false 100
        ⟨[], [], [], [], []⟩).notifications
      = [] ++ [initial_notif ⟨1, 2, 100, "Aspirin", "100mg", "daily"⟩] ∧
    alookup (1, 2, 100)
        (processSlot ⟨1, 2, 100, "Aspirin", "100mg", "daily"⟩ 0 false 100
          ⟨[], [], [], [], []⟩).reminderCache
      = some 100 :=
  (initial_window_dedup ⟨1, 2, 100, "Aspirin", "100mg", "daily"⟩ 0 100
    ⟨[], [], [], [], []⟩ (by decide) (by decide) (by decide)).1 (by decide)

theorem is_quiet_hours_some (nowT startT endT : Nat) :
    is_quiet_hours nowT (some startT) (some endT)
      = if startT < endT then decide (startT ≤ nowT ∧ nowT ≤ endT)
        else decide (nowT ≥ startT ∨ nowT ≤ endT) := rfl

/-- C6: the quiet-hours predicate classifies a wrapped range (start
after end) as inside exactly when the local time is at or after the
start or at or before the end, and a non-wrapped range (start before
end) as inside exactly when the local time lies between the two bounds
inclusive. -/
theorem quiet_hours_range_classification (s e n : Nat) :
    (e < s → (is_quiet_hours n (some s) (some e) = true ↔ (s ≤ n ∨ n ≤ e))) ∧
    (s < e → (is_quiet_hours n (some s) (some e) = true ↔ (s ≤ n ∧ n ≤ e))) := by
  constructor
  · intro h
    rw [is_quiet_hours_some, if_neg (by omega)]
    simp [ge_iff_le]
  · intro h
    rw [is_quiet_hours_some, if_pos h]
    simp

theorem quiet_hours_range_classification_witness :
    (is_quiet_hours 82800 (some 79200) (some 21600) = true ↔
      (79200 ≤ 82800 ∨ 82800 ≤ 21600)) ∧
    (is_quiet_hours 7200 (some 79200) (some 21600) = true ↔
      (79200 ≤ 7200 ∨ 7200 ≤ 21600)) ∧
    (is_quiet_hours 43200 (some 79200) (some 21600) = true ↔
      (79200 ≤ 43200 ∨ 43200 ≤ 21600)) :=
  ⟨(quiet_hours_range_classification 79200 21600 82800).1 (by decide),
   (quiet_hours_range_classification 79200 21600 7200).1 (by decide),
   (quiet_hours_range_classification 79200 21600 43200).1 (by decide)⟩

/-- C10: when the two configured quiet-hours bounds are present,
parsed, and equal, the predicate lands in the wrap branch whose
disjunction always holds, so every local time counts as inside quiet
hours, and consequently every initial-window or retry-window slot
evaluation under that flag changes nothing. -/
theorem equal_quiet_bounds_always_inside (t n : Nat) :
    is_quiet_hours n (some t) (some t) = true ∧
    (∀ (sl : MedSlot) (e now : Int) (st : SchedState), 0 ≤ e → e ≤ 1800 →
      processSlot sl e (is_quiet_hours n (some t) (some t)) now st = st) := by
  have hq : is_quiet_hours n (some t) (some t) = true := by
    rw [is_quiet_hours_some, if_neg (by omega)]
    simp [ge_iff_le]
    omega
  refine ⟨hq, ?_⟩
  intro sl e now st h0 h18
  rw [hq]
  exact processSlot_quiet_id sl e now st h0 h18

theorem equal_quiet_bounds_always_inside_witness :
    is_quiet_hours 43200 (some 79200) (some 79200) = true ∧
    processSlot ⟨1, 2, 100, "Aspirin", "100mg", "daily"⟩ 500
        (is_quiet_hours 43200 (some 79200) (some 79200)) 600 ⟨[], [], [], [], []⟩
      = ⟨[], [], [], [], []⟩ :=
  ⟨(equal_quiet_bounds_always_inside 79200 43200).1,
   (equal_quiet_bounds_always_inside 79200 43200).2
     ⟨1, 2, 100, "Aspirin", "100mg", "daily"⟩ 500 600 ⟨[], [], [], [], []⟩
     (by decide) (by decide)⟩

/-! ## C5: the retry counter bounds follow-ups over a whole run -/

def rcount (sl : MedSlot) (cache : List (SlotKey × RetryVal)) : Nat :=
  ((alookup (slotKey sl) cache).map RetryVal.count).getD 0

theorem rcount_aset (sl : MedSlot) (v : RetryVal) (l : List (SlotKey × RetryVal)) :
    rcount sl (aset (slotKey sl) v l) = v.count := by
  unfold rcount
  rw [alookup_aset_self]
  rfl

theorem rcount_none (sl : MedSlot) (l : List (SlotKey × RetryVal))
    (h : alookup (slotKey sl) l = none) : rcount sl l = 0 := by
  unfold rcount
  rw [h]
  rfl

theorem rcount_some (sl : MedSlot) (l : List (SlotKey × RetryVal)) (v : RetryVal)
    (h : alookup (slotKey sl) l = some v) : rcount sl l = v.count := by
  unfold rcount
  rw [h]
  rfl

theorem getD_count_eq_rcount (sl : MedSlot) (l : List (SlotKey × RetryVal)) (d : Int) :
    ((alookup (slotKey sl) l).getD ⟨0, d⟩).count = rcount sl l := by
  unfold rcount
  cases h : alookup (slotKey sl) l <;> rfl

theorem countFollowups_nil : countFollowups [] = 0 := rfl

theorem countFollowups_append (l l' : List Notif) :
    countFollowups (l ++ l') = countFollowups l + countFollowups l' := by
  unfold countFollowups
  rw [List.countP_append]

theorem countFollowups_initial (sl : MedSlot) : countFollowups [initial_notif sl] = 0 := by
  unfold countFollowups initial_notif
  simp

theorem countFollowups_followup (sl : MedSlot) : countFollowups [followup_notif sl] = 1 := by
  unfold countFollowups followup_notif
  simp

theorem countFollowups_missed (sl : MedSlot) : countFollowups [missed_notif sl] = 0 := by
  unfold countFollowups missed_notif
  simp

theorem countFollowups_missed_if (sl : MedSlot) (q : Bool) :
    countFollowups (if q then ([] : List Notif) else [missed_notif sl]) = 0 := by
  cases q
  · simpa using countFollowups_missed sl
  · exact countFollowups_nil

/-- The inductive invariant for the retry bound. The parameter b is
the follow-up count at process start, m a lower bound on the instants
of the ticks still to come. -/
def RetryInv (sl : MedSlot) (b : Nat) (m : Int) (st : SchedState) : Prop :=
  rcount sl st.retryCache ≤ 2 ∧
  countFollowups st.notifications ≤ b + 2 ∧
  (∀ v, alookup (slotKey sl) st.retryCache = some v → sl.schedDt ≤ v.ts) ∧
  countKey (slotKey sl) st.retryCache ≤ 1 ∧
  (countFollowups st.notifications ≤ b + rcount sl st.retryCache ∨ sl.schedDt + 1800 < m) ∧
  (m ≤ sl.schedDt + 900 → countFollowups st.notifications ≤ b)

theorem retryInv_mono (sl : MedSlot) (b : Nat) (m m' : Int) (st : SchedState)
    (h : RetryInv sl b m st) (hm : m ≤ m') : RetryInv sl b m' st := by
  obtain ⟨h1, h2, h3, h4, h5, h6⟩ := h
  refine ⟨h1, h2, h3, h4, ?_, ?_⟩
  · rcases h5 with h5 | h5
    · exact Or.inl h5
    · exact Or.inr (by omega)
  · intro hle
    exact h6 (by omega)

theorem retryInv_evict (sl : MedSlot) (b : Nat) (now : Int) (st : SchedState)
    (h : RetryInv sl b now st) : RetryInv sl b now (evictCaches st now) := by
  obtain ⟨h1, h2, h3, h4, h5, h6⟩ := h
  have hcf : countKey (slotKey sl) (evictCaches st now).retryCache
      ≤ countKey (slotKey sl) st.retryCache :=
    countKey_filter_le (slotKey sl) _ st.retryCache
  rcases hL : alookup (slotKey sl) st.retryCache with _ | v
  · have hN : alookup (slotKey sl) (evictCaches st now).retryCache = none :=
      alookup_filter_none (slotKey sl) _ st.retryCache hL
    refine ⟨?_, h2, ?_, le_trans hcf h4, ?_, h6⟩
    · rw [rcount_none sl _ hN]
      omega
    · intro v hv
      rw [hN] at hv
      cases hv
    · rcases h5 with h5 | h5
      · left
        rw [rcount_none sl _ hL] at h5
        rw [rcount_none sl _ hN]
        exact h5
      · exact Or.inr h5
  · have hflt := alookup_filter_of_countKey_le_one (slotKey sl)
      (fun p => !decide (p.2.ts < now - 172800)) st.retryCache v h4 hL
    cases hkeep : (!decide (v.ts < now - 172800)) with
    | true =>
      have hK : alookup (slotKey sl) (evictCaches st now).retryCache = some v := by
        show alookup (slotKey sl)
            (st.retryCache.filter (fun p => !decide (p.2.ts < now - 172800))) = some v
        rw [hflt]
        simpa using hkeep
      refine ⟨?_, h2, ?_, le_trans hcf h4, ?_, h6⟩
      · rw [rcount_some sl _ v hK]
        rw [rcount_some sl _ v hL] at h1
        exact h1
      · intro w hw
        rw [hK] at hw
        cases hw
        exact h3 v hL
      · rcases h5 with h5 | h5
        · left
          rw [rcount_some sl _ v hL] at h5
          rw [rcount_some sl _ v hK]
          exact h5
        · exact Or.inr h5
    | false =>
      have hts : v.ts < now - 172800 := by
        have := hkeep
        simp at this
        omega
      have hN : alookup (slotKey sl) (evictCaches st now).retryCache = none := by
        show alookup (slotKey sl)
            (st.retryCache.filter (fun p => !decide (p.2.ts < now - 172800))) = none
        rw [hflt]
        have hcond : ¬ ((fun p : SlotKey × RetryVal => !decide (p.2.ts < now - 172800))
            ((slotKey sl), v) = true) := by
          simp
          omega
        rw [if_neg hcond]
      have hd : sl.schedDt + 1800 < now := by
        have := h3 v hL
        omega
      refine ⟨?_, h2, ?_, le_trans hcf h4, Or.inr hd, h6⟩
      · rw [rcount_none sl _ hN]
        omega
      · intro w hw
        rw [hN] at hw
        cases hw

theorem retryInv_processSlot (sl : MedSlot) (b : Nat) (m now : Int) (q : Bool)
    (st : SchedState) (h : RetryInv sl b m st) (hm : m ≤ now) :
    RetryInv sl b now (processSlot sl (now - sl.schedDt) q now st) := by
  have hmono := retryInv_mono sl b m now st h hm
  by_cases he0 : now - sl.schedDt < 0
  · rw [processSlot_future sl _ q now st he0]
    exact hmono
  cases hI : has_intake st.ledger sl.sched sl.schedDt with
  | true =>
    rw [processSlot_resolved sl _ q now st hI]
    exact hmono
  | false =>
    by_cases h9 : now - sl.schedDt ≤ 900
    · cases q with
      | true =>
        rw [processSlot_quiet_id sl _ now st (by omega) (by omega)]
        exact hmono
      | false =>
        cases hr : (should_send_med_reminder now (slotKey sl) st.reminderCache).1 with
        | false =>
          rw [processSlot_initial_blocked sl _ now st hI (by omega) h9 hr]
          exact hmono
        | true =>
          rw [processSlot_initial_send sl _ now st hI (by omega) h9 hr]
          obtain ⟨h1, h2, h3, h4, h5, h6⟩ := hmono
          have hfb : countFollowups st.notifications ≤ b := h6 (by omega)
          refine ⟨?_, ?_, ?_, ?_, ?_, ?_⟩
          · show rcount sl (aset (slotKey sl) ⟨1, now⟩ st.retryCache) ≤ 2
            rw [rcount_aset]
            show (1 : Nat) ≤ 2
            omega
          · show countFollowups (st.notifications ++ [initial_notif sl]) ≤ b + 2
            rw [countFollowups_append, countFollowups_initial]
            omega
          · intro v hv
            have hv' : alookup (slotKey sl) (aset (slotKey sl) ⟨1, now⟩ st.retryCache)
                = some v := hv
            rw [alookup_aset_self] at hv'
            cases hv'
            show sl.schedDt ≤ now
            omega
          · show countKey (slotKey sl) (aset (slotKey sl) ⟨1, now⟩ st.retryCache) ≤ 1
            rw [countKey_aset]
          · left
            show countFollowups (st.notifications ++ [initial_notif sl])
                ≤ b + rcount sl (aset (slotKey sl) ⟨1, now⟩ st.retryCache)
            rw [countFollowups_append, countFollowups_initial, rcount_aset]
            show countFollowups st.notifications + 0 ≤ b + 1
            omega
          · intro _
            show countFollowups (st.notifications ++ [initial_notif sl]) ≤ b
            rw [countFollowups_append, countFollowups_initial]
            omega
    · by_cases h18 : now - sl.schedDt ≤ 1800
      · cases q with
        | true =>
          rw [processSlot_quiet_id sl _ now st (by omega) h18]
          exact hmono
        | false =>
          by_cases hc2 : 2 ≤ ((alookup (slotKey sl) st.retryCache).getD ⟨0, now⟩).count
          · rw [processSlot_retry_capped sl _ now st hI (by omega) h18 hc2]
            exact hmono
          · rw [processSlot_retry_send sl _ now st hI (by omega) h18 hc2]
            obtain ⟨h1, h2, h3, h4, h5, h6⟩ := hmono
            have hcr : ((alookup (slotKey sl) st.retryCache).getD ⟨0, now⟩).count
                = rcount sl st.retryCache := getD_count_eq_rcount sl st.retryCache now
            have hleft : countFollowups st.notifications ≤ b + rcount sl st.retryCache := by
              rcases h5 with h5 | h5
              · exact h5
              · omega
            refine ⟨?_, ?_, ?_, ?_, ?_, ?_⟩
            · show rcount sl (aset (slotKey sl)
                  ⟨((alookup (slotKey sl) st.retryCache).getD ⟨0, now⟩).count + 1, now⟩
                  st.retryCache) ≤ 2
              rw [rcount_aset]
              show ((alookup (slotKey sl) st.retryCache).getD ⟨0, now⟩).count + 1 ≤ 2
              omega
            · show countFollowups (st.notifications ++ [followup_notif sl]) ≤ b + 2
              rw [countFollowups_append, countFollowups_followup]
              omega
            · intro v hv
              have hv' : alookup (slotKey sl) (aset (slotKey sl)
                  ⟨((alookup (slotKey sl) st.retryCache).getD ⟨0, now⟩).count + 1, now⟩
                  st.retryCache) = some v := hv
              rw [alookup_aset_self] at hv'
              cases hv'
              show sl.schedDt ≤ now
              omega
            · show countKey (slotKey sl) (aset (slotKey sl)
                  ⟨((alookup (slotKey sl) st.retryCache).getD ⟨0, now⟩).count + 1, now⟩
                  st.retryCache) ≤ 1
              rw [countKey_aset]
            · left
              show countFollowups (st.notifications ++ [followup_notif sl])
                  ≤ b + rcount sl (aset (slotKey sl)
                      ⟨((alookup (slotKey sl) st.retryCache).getD ⟨0, now⟩).count + 1, now⟩
                      st.retryCache)
              rw [countFollowups_append, countFollowups_followup, rcount_aset]
              show countFollowups st.notifications + 1
                  ≤ b + (((alookup (slotKey sl) st.retryCache).getD ⟨0, now⟩).count + 1)
              omega
            · intro hx
              omega
      · by_cases h36 : 3600 < now - sl.schedDt
        · rcases hmm : alookup (slotKey sl) st.missedCache with _ | w
          · rw [processSlot_missed_write sl _ q now st hI h36 hmm]
            obtain ⟨h1, h2, h3, h4, h5, h6⟩ := hmono
            refine ⟨h1, ?_, h3, h4, Or.inr (by omega), ?_⟩
            · show countFollowups
                  (st.notifications ++ (if q then [] else [missed_notif sl])) ≤ b + 2
              rw [countFollowups_append, countFollowups_missed_if]
              omega
            · intro hx
              omega
          · rw [processSlot_missed_latched sl _ q now st hI h36 (by rw [hmm]; rfl)]
            exact hmono
        · rw [processSlot_gap sl _ q now st (by omega) h36]
          exact hmono

theorem retryInv_step (sl : MedSlot) (b : Nat) (m : Int) (st : SchedState) (tk : TickIn)
    (h : RetryInv sl b m st) (hm : m ≤ tk.now) :
    RetryInv sl b tk.now (stepSlot sl st tk) := by
  unfold stepSlot
  exact retryInv_evict sl b tk.now _ (retryInv_processSlot sl b m tk.now tk.quiet st h hm)

theorem retryInv_run (sl : MedSlot) (b : Nat) (ticks : List TickIn) : ∀ (m : Int)
    (st : SchedState), RetryInv sl b m st →
    List.Pairwise (fun a c : TickIn => a.now ≤ c.now) ticks →
    (∀ tk ∈ ticks, m ≤ tk.now) →
    countFollowups (runSlotTicks sl ticks st).notifications ≤ b + 2 := by
  induction ticks with
  | nil =>
    intro m st h _ _
    exact h.2.1
  | cons tk rest ih =>
    intro m st h hp hlb
    have h1 := retryInv_step sl b m st tk h (hlb tk (by simp))
    rw [List.pairwise_cons] at hp
    have hrw : runSlotTicks sl (tk :: rest) st = runSlotTicks sl rest (stepSlot sl st tk) :=
      rfl
    rw [hrw]
    exact ih tk.now (stepSlot sl st tk) h1 hp.2 (fun tk2 htk2 => hp.1 tk2 htk2)

/-- C5: for any untaken slot with no retry-cache entry at process
start, across any monotone sequence of scheduler ticks the number of
follow-up reminder notifications added for the slot is at most 2; the
per-slot retry counter enforces the cap (the retry branch only fires
for elapsed in (15, 30] minutes, and the two-day cache sweep cannot
reopen it before that window is long past). -/
theorem retry_cap_two (sl : MedSlot) (st : SchedState) (ticks : List TickIn)
    (h0 : alookup (slotKey sl) st.retryCache = none)
    (hsorted : List.Pairwise (fun a c : TickIn => a.now ≤ c.now) ticks) :
    countFollowups (runSlotTicks sl ticks st).notifications
      ≤ countFollowups st.notifications + 2 := by
  cases ticks with
  | nil =>
    show countFollowups st.notifications ≤ countFollowups st.notifications + 2
    omega
  | cons tk rest =>
    have hinv : RetryInv sl (countFollowups st.notifications) tk.now st := by
      refine ⟨?_, by omega, ?_, ?_, Or.inl ?_, fun _ => le_refl _⟩
      · rw [rcount_none sl st.retryCache h0]
        omega
      · intro v hv
        rw [h0] at hv
        cases hv
      · rw [countKey_zero_of_alookup_none (slotKey sl) st.retryCache h0]
        omega
      · rw [rcount_none sl st.retryCache h0]
        omega
    refine retryInv_run sl (countFollowups st.notifications) (tk :: rest) tk.now st hinv
      hsorted ?_
    intro tk2 h2
    rcases List.mem_cons.mp h2 with h2 | h2
    · rw [h2]
    · exact (List.pairwise_cons.mp hsorted).1 tk2 h2

theorem retry_cap_two_witness :
    countFollowups (runSlotTicks ⟨1, 2, 100, "Aspirin", "100mg", "daily"⟩
        [⟨1100, false⟩, ⟨1200, false⟩, ⟨1700, false⟩]
        ⟨[], [], [], [], []⟩).notifications
      ≤ countFollowups ([] : List Notif) + 2 :=
  retry_cap_two ⟨1, 2, 100, "Aspirin", "100mg", "daily"⟩ ⟨[], [], [], [], []⟩
    [⟨1100, false⟩, ⟨1200, false⟩, ⟨1700, false⟩] (by decide)
    (by simp [List.pairwise_cons])

/-! ## C7: the dispatcher persists first and defaults are permissive -/

theorem categoryAllowed_default (ty : String) : categoryAllowed defaultPrefs ty = true := by
  unfold categoryAllowed defaultPrefs
  simp

theorem defaultPrefs_sms : defaultPrefs.sms_notifications = false := rfl

theorem defaultPrefs_email : defaultPrefs.email_notifications = true := rfl

/-- C7: every dispatch persists the Notification row as its first
action, before the preference check and any channel attempt; with no
preference record the dispatcher still succeeds under permissive
defaults (email on, SMS off), so it never attempts SMS and attempts
email exactly when an address resolves; and a disabled category toggle
stops everything after the row insert. -/
theorem dispatcher_row_first_and_defaults (contact : Option String)
    (prefRow : Option NotifPrefs) (u : Nat) (ty title body : String) :
    (create_notification contact prefRow u ty title body).head?
        = some (DispatchAct.notifRow u ty title body) ∧
    (prefRow = none →
      (∀ ph m, DispatchAct.smsSend ph m ∉
          create_notification contact none u ty title body) ∧
      (∀ em, get_user_email contact = some em →
        create_notification contact none u ty title body
          = [DispatchAct.notifRow u ty title body,
             DispatchAct.emailSend em title body]) ∧
      (get_user_email contact = none →
        create_notification contact none u ty title body
          = [DispatchAct.notifRow u ty title body])) ∧
    (categoryAllowed (get_notification_preferences prefRow) ty = false →
      create_notification contact prefRow u ty title body
        = [DispatchAct.notifRow u ty title body]) := by
  refine ⟨?_, ?_, ?_⟩
  · cases hcat : categoryAllowed (get_notification_preferences prefRow) ty with
    | false => simp [create_notification, hcat]
    | true =>
      rcases he : get_user_email contact with _ | em <;>
        rcases hp : get_user_phone contact with _ | ph <;>
          simp [create_notification, hcat, he, hp]
  · intro h
    subst h
    have hcat := categoryAllowed_default ty
    refine ⟨?_, ?_, ?_⟩
    · intro ph m
      rcases he : get_user_email contact with _ | em <;>
        rcases hpn : get_user_phone contact with _ | pn <;>
          simp [create_notification, get_notification_preferences, hcat, he, hpn,
            defaultPrefs_sms, defaultPrefs_email]
    · intro em hem
      rcases hpn : get_user_phone contact with _ | pn <;>
        simp [create_notification, get_notification_preferences, hcat, hem, hpn,
          defaultPrefs_sms, defaultPrefs_email]
    · intro hem
      rcases hpn : get_user_phone contact with _ | pn <;>
        simp [create_notification, get_notification_preferences, hcat, hem, hpn,
          defaultPrefs_sms, defaultPrefs_email]
  · intro hcat
    simp [create_notification, hcat]

theorem dispatcher_row_first_and_defaults_witness :
    create_notification (some "alice@example.com") none 7 "medication_reminder" "T" "B"
      = [DispatchAct.notifRow 7 "medication_reminder" "T" "B",
         DispatchAct.emailSend "alice@example.com" "T" "B"] :=
  ((dispatcher_row_first_and_defaults (some "alice@example.com") none 7
      "medication_reminder" "T" "B").2.1 rfl).2.1 "alice@example.com" (by decide)

/-! ## C8: contact resolution heuristics -/

theorem filter_digit_filter (l : List Char) :
    (l.filter (fun ch => ch.isDigit || ch == '+')).filter (fun ch => ch.isDigit)
      = l.filter (fun ch => ch.isDigit) := by
  induction l with
  | nil => rfl
  | cons c rest ih =>
    by_cases hd : c.isDigit = true
    · simp [List.filter_cons, hd, ih]
    · by_cases hp : (c == '+') = true
      · simp [List.filter_cons, hd, hp, ih]
      · simp [List.filter_cons, hd, hp, ih]

theorem phone_of_nine_digits (c : String)
    (h : 9 ≤ ((pyStrip c).toList.filter (fun ch => ch.isDigit)).length) :
    (get_user_phone (some c)).isSome = true := by
  show (if 9 ≤ (((pyStrip c).toList.filter (fun ch => ch.isDigit || ch == '+')).filter
          (fun ch => ch.isDigit)).length
    then some (String.mk ((pyStrip c).toList.filter (fun ch => ch.isDigit || ch == '+')))
    else none).isSome = true
  rw [filter_digit_filter, if_pos h]
  rfl

/-- C8: on the stripped stored contact, a string containing an at sign
resolves (whole) as the email address; at least nine digit characters
resolve (the kept digit and plus characters) as the phone number, so
in particular any digit-majority string of length at least 17
resolves; and concrete contacts show that either, both, or neither
channel may resolve. -/
theorem contact_resolution_heuristics (c : String) :
    ((pyStrip c).toList.contains '@' = true →
      get_user_email (some c) = some (pyStrip c)) ∧
    (9 ≤ ((pyStrip c).toList.filter (fun ch => ch.isDigit)).length →
      (get_user_phone (some c)).isSome = true) ∧
    (17 ≤ (pyStrip c).toList.length →
      (pyStrip c).toList.length
          < 2 * ((pyStrip c).toList.filter (fun ch => ch.isDigit)).length →
      (get_user_phone (some c)).isSome = true) ∧
    ((get_user_email (some "alice@example.com")).isSome = true ∧
      (get_user_phone (some "alice@example.com")).isSome = false) ∧
    ((get_user_email (some "a@b.com +254712345678")).isSome = true ∧
      (get_user_phone (some "a@b.com +254712345678")).isSome = true) ∧
    ((get_user_email (some "0712345678")).isSome = false ∧
      (get_user_phone (some "0712345678")).isSome = true) ∧
    ((get_user_email (some "john doe")).isSome = false ∧
      (get_user_phone (some "john doe")).isSome = false) := by
  refine ⟨?_, fun h => phone_of_nine_digits c h, ?_, by decide, by decide, by decide,
    by decide⟩
  · intro h
    simp [get_user_email]
    simpa using h
  · intro hlen hmaj
    exact phone_of_nine_digits c (by omega)

theorem contact_resolution_heuristics_witness :
    get_user_email (some "bob@x.io") = some (pyStrip "bob@x.io") :=
  (contact_resolution_heuristics "bob@x.io").1 (by decide)

/-! ## C9: error containment in the worker loop

Models of the three containment layers of medication_reminder_worker:
the per-slot try/except around the time-of-day parse, the per-schedule
timezone fallback, and the whole-tick try/except of the infinite loop.
All three are silent: the whole-tick handler is a bare except/pass,
the parse handler a bare continue, and the timezone fallback a plain
default, so none of them produces any log output. The worker state
therefore carries an explicit log list, and the except-clause model
discards the raised message and appends nothing to it.

The time-of-day parse is int() applied to the two fields of
t.split(colon) followed by datetime.replace, which raises for an hour
outside 0..23 or a minute outside 0..59. Python int() strips
surrounding whitespace, accepts one leading sign, and allows single
underscores between digits; pyInt? reproduces that grammar. -/

/-- Model of str.split on a single separator character: every
occurrence splits, empty fields included, and the empty string gives
one empty field. -/
def splitOnChar (sep : Char) : List Char → List (List Char)
  | [] => [[]]
  | c :: rest =>
    if c = sep then [] :: splitOnChar sep rest
    else
      match splitOnChar sep rest with
      | [] => [[c]]
      | fld :: flds => (c :: fld) :: flds

/-- Digit-run parser of the int() grammar: afterU records that the
previous character was an underscore, which must be followed by a
digit; the run may neither end with nor double an underscore. -/
def pyDigitsAux : Nat → Bool → List Char → Option Nat
  | acc, afterU, [] => if afterU then none else some acc
  | acc, afterU, c :: rest =>
    if c.isDigit then pyDigitsAux (acc * 10 + (c.toNat - 48)) false rest
    else if afterU then none
    else if c = '_' then pyDigitsAux acc true rest
    else none

/-- A nonempty digit run starting with a digit. -/
def pyDigits : List Char → Option Nat
  | [] => none
  | c :: rest => if c.isDigit then pyDigitsAux (c.toNat - 48) false rest else none

/-- Model of Python int() on a string: strip whitespace, one optional
sign, then a digit run with single underscores between digits. -/
def pyInt? (l : List Char) : Option Int :=
  match stripChars l with
  | '+' :: rest => (pyDigits rest).map (fun n => (n : Int))
  | '-' :: rest => (pyDigits rest).map (fun n => -(n : Int))
  | other => (pyDigits other).map (fun n => (n : Int))

/-- Model of the per-slot parse in the worker: t.split on colon must
give exactly two int() fields that form a valid hour and minute; any
failure (wrong arity, non-integer, out of range in replace) raises in
the source and the slot is skipped. -/
def parseSlotTime (t : String) : Option (Nat × Nat) :=
  match splitOnChar ':' t.toList with
  | [h, m] =>
    match pyInt? h, pyInt? m with
    | some hh, some mm =>
      if 0 ≤ hh ∧ hh < 24 ∧ 0 ≤ mm ∧ mm < 60 then some (hh.toNat, mm.toNat) else none
    | _, _ => none
  | _ => none

structure SchedRow where
  id : Nat
  user_id : Nat
  medication_name : String
  dosage : String
  frequency : String
deriving DecidableEq

/-- One iteration of the inner times loop of the worker: a slot whose
time fails to parse is skipped, otherwise the slot is evaluated.
localNow counts local wall-clock seconds and tzOff the zone offset, so
the scheduled UTC instant is the local instant minus the offset. -/
def processTimeEntry (row : SchedRow) (tzOff localNow : Int) (quiet : Bool)
    (st : SchedState) (t : String) : SchedState :=
  match parseSlotTime t with
  | none => st
  | some (hh, mm) =>
    let dayStart : Int := localNow - localNow % 86400
    let schedLocal : Int := dayStart + hh * 3600 + mm * 60
    processSlot
      ⟨row.user_id, row.id, schedLocal - tzOff, row.medication_name, row.dosage,
        row.frequency⟩
      (localNow - schedLocal) quiet (localNow - tzOff) st

def processTimes (row : SchedRow) (tzOff localNow : Int) (quiet : Bool)
    (ts : List String) (st : SchedState) : SchedState :=
  ts.foldl (processTimeEntry row tzOff localNow quiet) st

/-- The scheduler state together with the operator log of the worker
process. Nothing in the subsystem ever writes to the log. -/
structure WorkerState where
  sched : SchedState
  log : List String
deriving DecidableEq

/-- The whole-tick except clause, a bare pass: a raising tick keeps
the state it had reached when it raised, the message is discarded, and
no log record is produced. -/
def safeTick (tick : WorkerState → Except (String × WorkerState) WorkerState)
    (w : WorkerState) : WorkerState :=
  match tick w with
  | Except.ok w2 => w2
  | Except.error e => e.2

def runWorkerTicks
    (ticks : List (WorkerState → Except (String × WorkerState) WorkerState))
    (w : WorkerState) : WorkerState :=
  ticks.foldl (fun s t => safeTick t s) w

/-- Model of the timezone resolution: an unknown zone name falls back
to the zero offset of UTC, without raising. -/
def resolveTzOff (zones : List (String × Int)) (tz : String) : Int :=
  (alookup tz zones).getD 0

/-- C9 counterexample: an exception raised inside a tick is caught but
not logged. Running the loop on a tick that raises from the empty
state leaves the state unchanged and the log empty: the bare except
clause records nothing, so the caught-and-logged claim fails here. -/
theorem tick_exception_silent :
    runWorkerTicks [fun w => Except.error ("boom", w)] ⟨⟨[], [], [], [], []⟩, []⟩
      = ⟨⟨[], [], [], [], []⟩, []⟩ ∧
    (runWorkerTicks [fun w => Except.error ("boom", w)]
        ⟨⟨[], [], [], [], []⟩, []⟩).log = [] :=
  ⟨rfl, rfl⟩

/-- C9 (amended): an exception inside one tick is caught silently: the
except clause returns exactly the state the tick had reached, with no
log record, and the loop continues with the remaining ticks; a
malformed time-of-day entry is skipped individually, leaving the
processing of every other slot in the list unchanged; an unknown
timezone falls back to UTC instead of raising; and the parse model
follows int(), accepting whitespace, a sign, and underscores between
digits while rejecting wrong arity, non-integer fields, and
out-of-range hours or minutes. -/
theorem tick_error_silent_containment :
    (∀ (f : WorkerState → Except (String × WorkerState) WorkerState)
        (fs : List (WorkerState → Except (String × WorkerState) WorkerState))
        (w w1 : WorkerState) (msg : String),
      f w = Except.error (msg, w1) →
      safeTick f w = w1 ∧ runWorkerTicks (f :: fs) w = runWorkerTicks fs w1) ∧
    (∀ (row : SchedRow) (tzOff localNow : Int) (quiet : Bool) (st : SchedState)
        (pre post : List String) (bad : String),
      parseSlotTime bad = none →
      processTimes row tzOff localNow quiet (pre ++ bad :: post) st
        = processTimes row tzOff localNow quiet (pre ++ post) st) ∧
    (∀ (zones : List (String × Int)) (tz : String),
      alookup tz zones = none → resolveTzOff zones tz = 0) ∧
    parseSlotTime " 8:30" = some (8, 30) ∧
    parseSlotTime "+8:30" = some (8, 30) ∧
    parseSlotTime "1_2:30" = some (12, 30) ∧
    parseSlotTime "08:00" = some (8, 0) ∧
    parseSlotTime "8h30" = none ∧
    parseSlotTime "25:00" = none ∧
    parseSlotTime "-1:30" = none := by
  refine ⟨?_, ?_, ?_, by decide, by decide, by decide, by decide, by decide, by decide,
    by decide⟩
  · intro f fs w w1 msg h
    have hs : safeTick f w = w1 := by
      unfold safeTick
      rw [h]
    refine ⟨hs, ?_⟩
    show runWorkerTicks fs (safeTick f w) = runWorkerTicks fs w1
    rw [hs]
  · intro row tzOff localNow quiet st pre post bad hbad
    unfold processTimes
    rw [List.foldl_append, List.foldl_append, List.foldl_cons]
    rw [show processTimeEntry row tzOff localNow quiet
        (List.foldl (processTimeEntry row tzOff localNow quiet) st pre) bad
      = List.foldl (processTimeEntry row tzOff localNow quiet) st pre by
        unfold processTimeEntry
        rw [hbad]]
  · intro zones tz h
    unfold resolveTzOff
    rw [h]
    rfl

theorem tick_error_silent_containment_witness :
    safeTick (fun w => Except.error ("db down", w)) ⟨⟨[], [], [], [], []⟩, []⟩
        = ⟨⟨[], [], [], [], []⟩, []⟩ ∧
    runWorkerTicks [fun w => Except.error ("db down", w)] ⟨⟨[], [], [], [], []⟩, []⟩
      = runWorkerTicks [] ⟨⟨[], [], [], [], []⟩, []⟩ :=
  tick_error_silent_containment.1 (fun w => Except.error ("db down", w)) []
    ⟨⟨[], [], [], [], []⟩, []⟩ ⟨⟨[], [], [], [], []⟩, []⟩ "db down" rfl
